import Mathlib

/-!
Verification of the records-api repository: a per-user CRUD API for
"recording" resources.  The serializer field lists are transcribed from
src/app/recording/serializers.py.  The entity layer (core.models.Recording)
and the resource controller (recording.views.RecordingViewSet) are part of
the repository but their files are not present under src/; they are
modelled from the specification (spec.md sections 3, 4.1, 4.3, 6, 7),
which was written from that code.  Machine integers do not overflow in
this code path (ids are database-assigned), so ids are plain naturals.
-/

/-- Calendar date, as stored by the date_of_recording column. -/
structure Date where
  year : Nat
  month : Nat
  day : Nat
deriving DecidableEq, Repr

def isLeapYear (y : Nat) : Bool :=
  (y % 4 == 0 && y % 100 != 0) || y % 400 == 0

def daysInMonth (y m : Nat) : Nat :=
  if m == 2 then (if isLeapYear y then 29 else 28)
  else if m == 4 || m == 6 || m == 9 || m == 11 then 30
  else 31

/-- Valid Gregorian calendar date. -/
def Date.isValid (d : Date) : Bool :=
  1 ≤ d.month && d.month ≤ 12 && 1 ≤ d.day && d.day ≤ daysInMonth d.year d.month

/-- Modelled from the spec: the Recording entity of core.models (file not
under src/), with the columns named in spec section 3.  duration_minutes is
a decimal number; the tests exercise only whole-minute values, so it is
modelled at integer granularity. -/
structure Recording where
  id : Nat
  user : Nat
  title : String
  duration_minutes : Int
  date_of_recording : Date
  category : String
  current_status : String
  recording_url : String
  transcription_url : String
deriving DecidableEq, Repr

/-- Wire value of one serialized field. -/
inductive JsonVal where
  | str : String → JsonVal
  | num : Int → JsonVal
  | date : Date → JsonVal
deriving DecidableEq, Repr

namespace RecordingSerializer

/-- Meta.fields of RecordingSerializer, transcribed from
src/app/recording/serializers.py. -/
def fields : List String :=
  ["id", "title", "duration_minutes", "date_of_recording",
   "category", "current_status", "recording_url", "transcription_url"]

/-- Meta.read_only_fields of RecordingSerializer, transcribed from
src/app/recording/serializers.py. -/
def read_only_fields : List String := ["id"]

end RecordingSerializer

namespace RecordingDetailSerializer

/-- Meta.fields of RecordingDetailSerializer, transcribed from
src/app/recording/serializers.py: it reuses RecordingSerializer.Meta.fields. -/
def fields : List String := RecordingSerializer.fields

end RecordingDetailSerializer

/-- Wire representation of one model attribute.  Every model column can be
serialized, the serializer then emits only the names listed in its
Meta.fields; names outside the model yield none. -/
def fieldOut (r : Recording) : String → Option JsonVal
  | "id" => some (.num (Int.ofNat r.id))
  | "user" => some (.num (Int.ofNat r.user))
  | "title" => some (.str r.title)
  | "duration_minutes" => some (.num r.duration_minutes)
  | "date_of_recording" => some (.date r.date_of_recording)
  | "category" => some (.str r.category)
  | "current_status" => some (.str r.current_status)
  | "recording_url" => some (.str r.recording_url)
  | "transcription_url" => some (.str r.transcription_url)
  | _ => none

/-- Serializer output for one recording: the key/value pairs of the
Meta.fields names, in field-list order. -/
def serializeRecording (r : Recording) : List (String × JsonVal) :=
  RecordingSerializer.fields.filterMap
    (fun n => (fieldOut r n).map (fun v => (n, v)))

/-- Incoming request payload: each writable model field optionally present.
A user or id key in the body is representable but, as in the serializer,
never part of the writable field set. -/
structure Payload where
  id : Option Nat := none
  user : Option Nat := none
  title : Option String := none
  duration_minutes : Option Int := none
  date_of_recording : Option Date := none
  category : Option String := none
  current_status : Option String := none
  recording_url : Option String := none
  transcription_url : Option String := none
deriving DecidableEq, Repr

/-- Splits a character list at the first occurrence of the
scheme separator, yielding (scheme, remainder). -/
def splitScheme (acc : List Char) : List Char → Option (List Char × List Char)
  | ':' :: '/' :: '/' :: rest => some (acc.reverse, rest)
  | c :: rest => splitScheme (c :: acc) rest
  | [] => none

/-- Characters up to the first path separator: the host of a URL body. -/
def hostPart : List Char → List Char
  | [] => []
  | '/' :: _ => []
  | c :: rest => c :: hostPart rest

/-- Modelled from the spec: syntactic URL validity, scheme plus host at
minimum (spec section 4.2). -/
def isValidURL (s : String) : Bool :=
  match splitScheme [] s.data with
  | some (scheme, rest) => !scheme.isEmpty && !(hostPart rest).isEmpty
  | none => false

def validTitle (t : String) : Bool := !t.isEmpty

def validDuration (d : Int) : Bool := decide (0 ≤ d)

def validText (t : String) : Bool := !t.isEmpty

def requiredMsg : String := "This field is required."

/-- Validation of one optional field: a missing field is an error unless
the mode allows missing fields (partial update); a supplied field is
checked against its rule. -/
def checkField {α : Type} (name : String) (v : Option α) (allowMissing : Bool)
    (valid : α → Bool) (msg : String) : List (String × List String) :=
  match v with
  | none => if allowMissing then [] else [(name, [requiredMsg])]
  | some x => if valid x then [] else [(name, [msg])]

/-- Modelled from the spec: per-field validation of a payload
(spec section 4.2), in serializer field order.  The mode flag is true for
partial update (PATCH), false for create and full update.  user and id are
not writable fields and are never validated. -/
def fieldErrors (p : Payload) (allowMissing : Bool) : List (String × List String) :=
  checkField "title" p.title allowMissing validTitle "This field may not be blank." ++
  checkField "duration_minutes" p.duration_minutes allowMissing validDuration
    "Ensure this value is greater than or equal to 0." ++
  checkField "date_of_recording" p.date_of_recording allowMissing Date.isValid
    "Date has wrong format." ++
  checkField "category" p.category allowMissing validText "This field may not be blank." ++
  checkField "current_status" p.current_status allowMissing validText
    "This field may not be blank." ++
  checkField "recording_url" p.recording_url allowMissing isValidURL "Enter a valid URL." ++
  checkField "transcription_url" p.transcription_url allowMissing isValidURL
    "Enter a valid URL."

/-- Applies the supplied writable fields of a payload to a recording.
id and user are not writable and are left untouched whatever the payload
holds. -/
def applyPayload (r : Recording) (p : Payload) : Recording :=
  { r with
    title := p.title.getD r.title
    duration_minutes := p.duration_minutes.getD r.duration_minutes
    date_of_recording := p.date_of_recording.getD r.date_of_recording
    category := p.category.getD r.category
    current_status := p.current_status.getD r.current_status
    recording_url := p.recording_url.getD r.recording_url
    transcription_url := p.transcription_url.getD r.transcription_url }

/-- Modelled from the spec: creation forces the owner to the authenticated
principal and the id to the server-assigned value, whatever the payload
holds (spec section 4.1). -/
def mkRecording (uid rid : Nat) (p : Payload) : Recording :=
  { id := rid
    user := uid
    title := p.title.getD ""
    duration_minutes := p.duration_minutes.getD 0
    date_of_recording := p.date_of_recording.getD ⟨0, 0, 0⟩
    category := p.category.getD ""
    current_status := p.current_status.getD ""
    recording_url := p.recording_url.getD ""
    transcription_url := p.transcription_url.getD "" }

/-- Modelled from the spec: storage state, rows plus the next
server-assigned id (spec section 3: id is storage-assigned and unique). -/
structure DbState where
  rows : List Recording
  nextId : Nat
deriving DecidableEq, Repr

/-- Row ids are pairwise distinct: the storage invariant of the primary key. -/
def NodupIds (rows : List Recording) : Prop := (rows.map Recording.id).Nodup

instance (rows : List Recording) : Decidable (NodupIds rows) :=
  inferInstanceAs (Decidable (List.Nodup _))

/-- Descending order on ids, the order_by("-id") ordering of the list query. -/
def descId (a b : Recording) : Prop := b.id ≤ a.id

instance : DecidableRel descId := fun a b => inferInstanceAs (Decidable (b.id ≤ a.id))

instance : IsTotal Recording descId := ⟨fun a b => Nat.le_total b.id a.id⟩

instance : IsTrans Recording descId := ⟨fun _ _ _ h h2 => Nat.le_trans h2 h⟩

/-- Modelled from the spec: the owner-filtered list query, descending by id
(spec section 4.1). -/
def listRecordings (rows : List Recording) (uid : Nat) : List Recording :=
  List.insertionSort descId (rows.filter (fun r => r.user == uid))

/-- Modelled from the spec: the owner-filtered point query; an id under a
different owner is not distinguished from a missing id (spec section 4.1). -/
def getOwned (st : DbState) (uid rid : Nat) : Option Recording :=
  st.rows.find? (fun r => r.id == rid && r.user == uid)

/-- Authentication outcome of a request. -/
inductive AuthCtx where
  | anon : AuthCtx
  | user : Nat → AuthCtx
deriving DecidableEq, Repr

/-- Response body: empty, one object, a collection, or an error mapping
from field name to reasons. -/
inductive Body where
  | empty : Body
  | object : List (String × JsonVal) → Body
  | objects : List (List (String × JsonVal)) → Body
  | errors : List (String × List String) → Body
deriving DecidableEq, Repr

/-- Whether a body carries serialized recording data. -/
def Body.hasRecordingData : Body → Bool
  | .object _ => true
  | .objects _ => true
  | _ => false

structure HttpResponse where
  status : Nat
  body : Body
deriving DecidableEq, Repr

def notFoundResponse : HttpResponse :=
  { status := 404, body := .errors [("detail", ["Not found."])] }

def unauthorizedResponse : HttpResponse :=
  { status := 401
    body := .errors [("detail", ["Authentication credentials were not provided."])] }

/-- Modelled from the spec: GET /recordings/ (spec sections 4.3 and 6). -/
def listEndpoint (auth : AuthCtx) (st : DbState) : HttpResponse :=
  match auth with
  | .anon => unauthorizedResponse
  | .user uid =>
    { status := 200
      body := .objects ((listRecordings st.rows uid).map serializeRecording) }

/-- Modelled from the spec: GET /recordings/{id}/ (spec sections 4.3 and 6). -/
def retrieveEndpoint (auth : AuthCtx) (st : DbState) (rid : Nat) : HttpResponse :=
  match auth with
  | .anon => unauthorizedResponse
  | .user uid =>
    match getOwned st uid rid with
    | none => notFoundResponse
    | some r => { status := 200, body := .object (serializeRecording r) }

/-- Modelled from the spec: POST /recordings/ (spec sections 4.3 and 6). -/
def createEndpoint (auth : AuthCtx) (st : DbState) (p : Payload) :
    HttpResponse × DbState :=
  match auth with
  | .anon => (unauthorizedResponse, st)
  | .user uid =>
    match fieldErrors p false with
    | [] =>
      let r := mkRecording uid st.nextId p
      ({ status := 201, body := .object (serializeRecording r) },
       { rows := st.rows ++ [r], nextId := st.nextId + 1 })
    | errs => ({ status := 400, body := .errors errs }, st)

/-- Replaces the owner-filtered match of an id by its payload-updated value,
leaving every other row untouched. -/
def replaceOwned (rows : List Recording) (uid rid : Nat) (p : Payload) :
    List Recording :=
  rows.map (fun x => if x.id == rid && x.user == uid then applyPayload x p else x)

/-- Removes the owner-filtered match of an id, leaving every other row
untouched. -/
def removeOwned (rows : List Recording) (uid rid : Nat) : List Recording :=
  rows.filter (fun x => !(x.id == rid && x.user == uid))

/-- Modelled from the spec: PATCH (allowMissing true) and PUT (allowMissing
false) on /recordings/{id}/ (spec sections 4.3 and 6). -/
def updateEndpoint (auth : AuthCtx) (st : DbState) (rid : Nat) (p : Payload)
    (allowMissing : Bool) : HttpResponse × DbState :=
  match auth with
  | .anon => (unauthorizedResponse, st)
  | .user uid =>
    match getOwned st uid rid with
    | none => (notFoundResponse, st)
    | some r =>
      match fieldErrors p allowMissing with
      | [] =>
        ({ status := 200, body := .object (serializeRecording (applyPayload r p)) },
         { st with rows := replaceOwned st.rows uid rid p })
      | errs => ({ status := 400, body := .errors errs }, st)

/-- Modelled from the spec: DELETE /recordings/{id}/ (spec sections 4.3 and 6). -/
def deleteEndpoint (auth : AuthCtx) (st : DbState) (rid : Nat) :
    HttpResponse × DbState :=
  match auth with
  | .anon => (unauthorizedResponse, st)
  | .user uid =>
    match getOwned st uid rid with
    | none => (notFoundResponse, st)
    | some _ =>
      ({ status := 204, body := .empty },
       { st with rows := removeOwned st.rows uid rid })

/-! Concrete sample data, mirroring the fixtures of
src/app/recording/tests/test_recording_api.py. -/

/-- Valid payload of test_create_recording. -/
def wpA : Payload :=
  { title := some "Sample Recording name"
    duration_minutes := some 5
    date_of_recording := some ⟨2025, 10, 12⟩
    category := some "Art"
    current_status := some "Not Transcribed"
    recording_url := some "https://abcd.com/"
    transcription_url := some "https://abcd.com" }

/-- Title-only payload of test_partial_update. -/
def wpT : Payload := { title := some "New Recording Title" }

/-- Payload with a blank title, violating the title rule. -/
def wpBad : Payload := { title := some "" }

/-- Sample recording owned by user 1. -/
def recU1 : Recording :=
  ⟨2, 1, "Sample Recording name", 5, ⟨2025, 10, 12⟩, "Art", "Not Transcribed",
   "https://example.com/recording.mp3", "https://abcd.com"⟩

/-- Sample recording owned by user 2. -/
def recU2 : Recording :=
  ⟨1, 2, "Other title", 55, ⟨2021, 12, 22⟩, "Philosophy", "Transcribed",
   "https://abcdefg.com/", "https://abcdefg.com/"⟩

/-- Storage holding one recording of each of users 1 and 2. -/
def stW : DbState := ⟨[recU2, recU1], 3⟩

/-- First-created recording of user 1. -/
def recW1 : Recording :=
  ⟨1, 1, "R1", 5, ⟨2025, 1, 1⟩, "Art", "Not Transcribed",
   "https://a.b/", "https://a.b/"⟩

/-- Second-created recording of user 1. -/
def recW2 : Recording :=
  ⟨2, 1, "R2", 7, ⟨2025, 1, 2⟩, "Art", "Not Transcribed",
   "https://a.b/", "https://a.b/"⟩

/-- Storage holding two recordings of user 1, created in order. -/
def stW8 : DbState := ⟨[recW1, recW2], 3⟩

/-- Recording owned by user 1, used for the serializer comparison. -/
def rA : Recording :=
  ⟨5, 1, "T", 5, ⟨2025, 1, 1⟩, "C", "S", "https://a.b/", "https://a.b/"⟩

/-- Same eight serialized fields as rA, but owned by user 2. -/
def rB : Recording :=
  ⟨5, 2, "T", 5, ⟨2025, 1, 1⟩, "C", "S", "https://a.b/", "https://a.b/"⟩

/-! Helper lemmas shared by several claim proofs. -/

lemma id_inj_of_nodup {rows : List Recording} (hnd : NodupIds rows)
    {x y : Recording} (hx : x ∈ rows) (hy : y ∈ rows) (hxy : x.id = y.id) :
    x = y :=
  List.inj_on_of_nodup_map hnd hx hy hxy

lemma find_owned_eq_self {rows : List Recording} {uid : Nat} {r : Recording}
    (hnd : NodupIds rows) (hmem : r ∈ rows) (hu : r.user = uid) :
    rows.find? (fun x => x.id == r.id && x.user == uid) = some r := by
  induction rows with
  | nil => cases hmem
  | cons y ys ih =>
    rcases List.mem_cons.mp hmem with h | h
    · subst h
      simp [List.find?_cons, hu]
    · have hnd2 : NodupIds ys := by
        have : (y.id :: ys.map Recording.id).Nodup := hnd
        exact this.of_cons
      have hyid : y.id ≠ r.id := by
        intro hcontra
        have : y.id ∈ ys.map Recording.id := hcontra ▸ List.mem_map_of_mem _ h
        have hn : (y.id :: ys.map Recording.id).Nodup := hnd
        exact (List.nodup_cons.mp hn).1 this
      have hpred : (y.id == r.id && y.user == uid) = false := by
        simp [hyid]
      rw [List.find?_cons_of_neg _ (by simp [hpred, hyid]), ih hnd2 h]

lemma getOwned_eq_self {st : DbState} {uid : Nat} {r : Recording}
    (hnd : NodupIds st.rows) (hmem : r ∈ st.rows) (hu : r.user = uid) :
    getOwned st uid r.id = some r :=
  find_owned_eq_self hnd hmem hu

lemma getOwned_eq_none {st : DbState} {uid rid : Nat}
    (h : ∀ x ∈ st.rows, ¬(x.id = rid ∧ x.user = uid)) :
    getOwned st uid rid = none := by
  apply List.find?_eq_none.mpr
  intro x hx
  simp only [Bool.and_eq_true, beq_iff_eq]
  exact fun hc => h x hx ⟨hc.1, hc.2⟩

lemma checkField_some {α : Type} {name : String} {v : Option α} {valid : α → Bool}
    {msg : String} (h : checkField name v false valid msg = []) :
    ∃ x, v = some x ∧ valid x = true := by
  cases v with
  | none => simp [checkField] at h
  | some x =>
    refine ⟨x, rfl, ?_⟩
    cases hvx : valid x with
    | true => rfl
    | false => simp [checkField, hvx] at h

lemma checkField_entries {α : Type} {name : String} {v : Option α} {b : Bool}
    {valid : α → Bool} {msg : String} :
    ∀ e ∈ checkField name v b valid msg, e.2 ≠ [] := by
  intro e he
  cases v with
  | none =>
    cases b with
    | true => simp [checkField] at he
    | false =>
      simp [checkField] at he
      simp [he]
  | some x =>
    cases hvx : valid x with
    | true => simp [checkField, hvx] at he
    | false =>
      simp [checkField, hvx] at he
      simp [he]

lemma fieldErrors_nil_false {p : Payload} (h : fieldErrors p false = []) :
    (∃ t, p.title = some t ∧ validTitle t = true) ∧
    (∃ d, p.duration_minutes = some d ∧ validDuration d = true) ∧
    (∃ d, p.date_of_recording = some d ∧ Date.isValid d = true) ∧
    (∃ t, p.category = some t ∧ validText t = true) ∧
    (∃ t, p.current_status = some t ∧ validText t = true) ∧
    (∃ u, p.recording_url = some u ∧ isValidURL u = true) ∧
    (∃ u, p.transcription_url = some u ∧ isValidURL u = true) := by
  simp only [fieldErrors, List.append_eq_nil] at h
  obtain ⟨⟨⟨⟨⟨⟨h1, h2⟩, h3⟩, h4⟩, h5⟩, h6⟩, h7⟩ := h
  exact ⟨checkField_some h1, checkField_some h2, checkField_some h3,
    checkField_some h4, checkField_some h5, checkField_some h6, checkField_some h7⟩

lemma entries_append {l1 l2 : List (String × List String)}
    (h1 : ∀ e ∈ l1, e.2 ≠ []) (h2 : ∀ e ∈ l2, e.2 ≠ []) :
    ∀ e ∈ l1 ++ l2, e.2 ≠ [] := by
  intro e he
  rcases List.mem_append.mp he with h | h
  · exact h1 e h
  · exact h2 e h

lemma replaceOwned_idUser (rows : List Recording) (uid rid : Nat) (p : Payload) :
    (replaceOwned rows uid rid p).map (fun r => (r.id, r.user)) =
      rows.map (fun r => (r.id, r.user)) := by
  induction rows with
  | nil => rfl
  | cons x xs ih =>
    simp only [replaceOwned, List.map_cons] at ih ⊢
    rw [ih]
    congr 1
    split <;> rfl

/-- C9: every request to any recording endpoint without valid credentials
yields status 401 and a response disclosing no recording data. -/
theorem c9_auth_required (st : DbState) (rid : Nat) (p : Payload) (b : Bool) :
    listEndpoint .anon st = unauthorizedResponse ∧
    retrieveEndpoint .anon st rid = unauthorizedResponse ∧
    createEndpoint .anon st p = (unauthorizedResponse, st) ∧
    updateEndpoint .anon st rid p b = (unauthorizedResponse, st) ∧
    deleteEndpoint .anon st rid = (unauthorizedResponse, st) ∧
    unauthorizedResponse.status = 401 ∧
    Body.hasRecordingData unauthorizedResponse.body = false :=
  ⟨rfl, rfl, rfl, rfl, rfl, rfl, rfl⟩

/-- C10: both serializers emit exactly the eight Meta.fields keys and never
a user key, so two recordings agreeing on those eight fields but owned by
different users serialize identically. -/
theorem c10_owner_not_disclosed (r1 r2 : Recording)
    (hid : r1.id = r2.id) (htitle : r1.title = r2.title)
    (hdur : r1.duration_minutes = r2.duration_minutes)
    (hdate : r1.date_of_recording = r2.date_of_recording)
    (hcat : r1.category = r2.category)
    (hstat : r1.current_status = r2.current_status)
    (hrurl : r1.recording_url = r2.recording_url)
    (hturl : r1.transcription_url = r2.transcription_url)
    (howner : r1.user ≠ r2.user) :
    RecordingDetailSerializer.fields = RecordingSerializer.fields ∧
    (serializeRecording r1).map Prod.fst = RecordingSerializer.fields ∧
    "user" ∉ (serializeRecording r1).map Prod.fst ∧
    serializeRecording r1 = serializeRecording r2 := by
  refine ⟨rfl, rfl, ?_, ?_⟩
  · have hk : (serializeRecording r1).map Prod.fst = RecordingSerializer.fields := rfl
    rw [hk]
    decide
  · obtain ⟨i1, u1, t1, d1, dt1, c1, s1, ru1, tu1⟩ := r1
    obtain ⟨i2, u2, t2, d2, dt2, c2, s2, ru2, tu2⟩ := r2
    have h1 : i1 = i2 := hid
    have h2 : t1 = t2 := htitle
    have h3 : d1 = d2 := hdur
    have h4 : dt1 = dt2 := hdate
    have h5 : c1 = c2 := hcat
    have h6 : s1 = s2 := hstat
    have h7 : ru1 = ru2 := hrurl
    have h8 : tu1 = tu2 := hturl
    subst h1 h2 h3 h4 h5 h6 h7 h8
    rfl

/-- C2: any user or id value in a create or update payload is silently
ignored (the response and state are the same as without it), updates
preserve every row's id and owner, and a created row carries the
authenticated principal as owner and the server-assigned id. -/
theorem c2_owner_id_immutable (st : DbState) (rid : Nat) (p : Payload)
    (b : Bool) (v w uid : Nat) :
    createEndpoint (.user uid) st { p with user := some v, id := some w } =
      createEndpoint (.user uid) st p ∧
    updateEndpoint (.user uid) st rid { p with user := some v, id := some w } b =
      updateEndpoint (.user uid) st rid p b ∧
    (updateEndpoint (.user uid) st rid p b).2.rows.map (fun r => (r.id, r.user)) =
      st.rows.map (fun r => (r.id, r.user)) ∧
    ((createEndpoint (.user uid) st p).2.rows = st.rows ∨
      (createEndpoint (.user uid) st p).2.rows =
        st.rows ++ [mkRecording uid st.nextId p]) ∧
    (mkRecording uid st.nextId p).user = uid ∧
    (mkRecording uid st.nextId p).id = st.nextId := by
  refine ⟨?_, ?_, ?_, ?_, rfl, rfl⟩
  · cases p
    rfl
  · cases p
    rfl
  · rcases hg : getOwned st uid rid with _ | r
    · simp [updateEndpoint, hg]
    · rcases hf : fieldErrors p b with _ | ⟨e, es⟩
      · simp [updateEndpoint, hg, hf, replaceOwned_idUser]
      · simp [updateEndpoint, hg, hf]
  · rcases hf : fieldErrors p false with _ | ⟨e, es⟩
    · right
      simp [createEndpoint, hf]
    · left
      simp [createEndpoint, hf]

/-- C8: the authenticated list endpoint returns status 200 with exactly the
caller's recordings ordered by descending id, serialization preserving that
order; two records created in order are returned most recent first. -/
theorem c8_list_ordering (uid : Nat) (st : DbState) :
    (listEndpoint (.user uid) st).status = 200 ∧
    (listEndpoint (.user uid) st).body =
      .objects ((listRecordings st.rows uid).map serializeRecording) ∧
    List.Perm (listRecordings st.rows uid)
      (st.rows.filter (fun x => x.user == uid)) ∧
    (listRecordings st.rows uid).Pairwise descId ∧
    (∀ r ∈ listRecordings st.rows uid, r.user = uid) ∧
    (∀ r1 r2, st.rows.filter (fun x => x.user == uid) = [r1, r2] →
      r1.id < r2.id → listRecordings st.rows uid = [r2, r1]) := by
  refine ⟨rfl, rfl, List.perm_insertionSort descId _,
    List.sorted_insertionSort descId _, ?_, ?_⟩
  · intro r hr
    have hmem : r ∈ st.rows.filter (fun x => x.user == uid) :=
      (List.perm_insertionSort descId _).mem_iff.mp hr
    exact beq_iff_eq.mp (List.mem_filter.mp hmem).2
  · intro r1 r2 hfil hlt
    unfold listRecordings
    rw [hfil]
    simp [List.insertionSort, List.orderedInsert, descId, Nat.not_le.mpr hlt]

/-- C3: creating with a valid payload as authenticated user uid yields
status 201, appends a record whose every writable field equals the payload
value, whose owner is uid whatever user value the payload holds, and whose
id is the server-assigned next id. -/
theorem c3_create_stores_payload (uid : Nat) (st : DbState) (p : Payload)
    (hv : fieldErrors p false = []) :
    (createEndpoint (.user uid) st p).1.status = 201 ∧
    (createEndpoint (.user uid) st p).2.rows =
      st.rows ++ [mkRecording uid st.nextId p] ∧
    (createEndpoint (.user uid) st p).2.nextId = st.nextId + 1 ∧
    (mkRecording uid st.nextId p).user = uid ∧
    (mkRecording uid st.nextId p).id = st.nextId ∧
    p.title = some (mkRecording uid st.nextId p).title ∧
    p.duration_minutes = some (mkRecording uid st.nextId p).duration_minutes ∧
    p.date_of_recording = some (mkRecording uid st.nextId p).date_of_recording ∧
    p.category = some (mkRecording uid st.nextId p).category ∧
    p.current_status = some (mkRecording uid st.nextId p).current_status ∧
    p.recording_url = some (mkRecording uid st.nextId p).recording_url ∧
    p.transcription_url = some (mkRecording uid st.nextId p).transcription_url := by
  obtain ⟨⟨t, ht, _⟩, ⟨d, hd, _⟩, ⟨dt, hdt, _⟩, ⟨c, hc, _⟩, ⟨s, hs, _⟩,
    ⟨ru, hru, _⟩, ⟨tu, htu, _⟩⟩ := fieldErrors_nil_false hv
  refine ⟨?_, ?_, ?_, rfl, rfl, ?_, ?_, ?_, ?_, ?_, ?_, ?_⟩
  · simp [createEndpoint, hv]
  · simp [createEndpoint, hv]
  · simp [createEndpoint, hv]
  · simp [mkRecording, ht]
  · simp [mkRecording, hd]
  · simp [mkRecording, hdt]
  · simp [mkRecording, hc]
  · simp [mkRecording, hs]
  · simp [mkRecording, hru]
  · simp [mkRecording, htu]

/-- C7: a supplied field violating its rule makes validation fail, every
validation error entry carries a nonempty reason list, and a failing create
or update returns status 400 with the field-error mapping and leaves the
state unchanged. -/
theorem c7_validation (p : Payload) (b : Bool) (st : DbState)
    (uid rid : Nat) (r : Recording) :
    ((∃ t, p.title = some t ∧ validTitle t = false) → fieldErrors p b ≠ []) ∧
    ((∃ d, p.duration_minutes = some d ∧ validDuration d = false) →
      fieldErrors p b ≠ []) ∧
    ((∃ d, p.date_of_recording = some d ∧ Date.isValid d = false) →
      fieldErrors p b ≠ []) ∧
    ((∃ t, p.category = some t ∧ validText t = false) → fieldErrors p b ≠ []) ∧
    ((∃ t, p.current_status = some t ∧ validText t = false) →
      fieldErrors p b ≠ []) ∧
    ((∃ u, p.recording_url = some u ∧ isValidURL u = false) →
      fieldErrors p b ≠ []) ∧
    ((∃ u, p.transcription_url = some u ∧ isValidURL u = false) →
      fieldErrors p b ≠ []) ∧
    (∀ e ∈ fieldErrors p b, e.2 ≠ []) ∧
    (fieldErrors p false ≠ [] →
      createEndpoint (.user uid) st p =
        ({ status := 400, body := .errors (fieldErrors p false) }, st)) ∧
    (fieldErrors p b ≠ [] → getOwned st uid rid = some r →
      updateEndpoint (.user uid) st rid p b =
        ({ status := 400, body := .errors (fieldErrors p b) }, st)) := by
  refine ⟨?_, ?_, ?_, ?_, ?_, ?_, ?_, ?_, ?_, ?_⟩
  · rintro ⟨t, ht, hbad⟩
    simp [fieldErrors, checkField, ht, hbad]
  · rintro ⟨d, hd, hbad⟩
    simp [fieldErrors, checkField, hd, hbad]
  · rintro ⟨d, hd, hbad⟩
    simp [fieldErrors, checkField, hd, hbad]
  · rintro ⟨c, hc, hbad⟩
    simp [fieldErrors, checkField, hc, hbad]
  · rintro ⟨s, hs, hbad⟩
    simp [fieldErrors, checkField, hs, hbad]
  · rintro ⟨u, hu, hbad⟩
    simp [fieldErrors, checkField, hu, hbad]
  · rintro ⟨u, hu, hbad⟩
    simp [fieldErrors, checkField, hu, hbad]
  · unfold fieldErrors
    exact entries_append (entries_append (entries_append (entries_append
      (entries_append (entries_append checkField_entries checkField_entries)
        checkField_entries) checkField_entries) checkField_entries)
      checkField_entries) checkField_entries
  · intro hne
    rcases hf : fieldErrors p false with _ | ⟨e, es⟩
    · exact absurd hf hne
    · simp [createEndpoint, hf]
  · intro hne hg
    rcases hf : fieldErrors p b with _ | ⟨e, es⟩
    · exact absurd hf hne
    · simp [updateEndpoint, hg, hf]

/-- C4: a valid PATCH on an owned recording returns 200 and changes only
the supplied fields: each absent field keeps its prior value, each supplied
field takes the payload value, owner and id are unchanged, and rows with a
different id are untouched. -/
theorem c4_partial_update_frame (uid : Nat) (st : DbState) (r : Recording)
    (p : Payload) (hnd : NodupIds st.rows) (hmem : r ∈ st.rows)
    (hown : r.user = uid) (hv : fieldErrors p true = []) :
    (updateEndpoint (.user uid) st r.id p true).1.status = 200 ∧
    (updateEndpoint (.user uid) st r.id p true).2.rows =
      replaceOwned st.rows uid r.id p ∧
    applyPayload r p ∈ (updateEndpoint (.user uid) st r.id p true).2.rows ∧
    (applyPayload r p).user = r.user ∧
    (applyPayload r p).id = r.id ∧
    (p.title = none → (applyPayload r p).title = r.title) ∧
    (∀ v, p.title = some v → (applyPayload r p).title = v) ∧
    (p.duration_minutes = none →
      (applyPayload r p).duration_minutes = r.duration_minutes) ∧
    (∀ v, p.duration_minutes = some v → (applyPayload r p).duration_minutes = v) ∧
    (p.date_of_recording = none →
      (applyPayload r p).date_of_recording = r.date_of_recording) ∧
    (∀ v, p.date_of_recording = some v → (applyPayload r p).date_of_recording = v) ∧
    (p.category = none → (applyPayload r p).category = r.category) ∧
    (∀ v, p.category = some v → (applyPayload r p).category = v) ∧
    (p.current_status = none →
      (applyPayload r p).current_status = r.current_status) ∧
    (∀ v, p.current_status = some v → (applyPayload r p).current_status = v) ∧
    (p.recording_url = none →
      (applyPayload r p).recording_url = r.recording_url) ∧
    (∀ v, p.recording_url = some v → (applyPayload r p).recording_url = v) ∧
    (p.transcription_url = none →
      (applyPayload r p).transcription_url = r.transcription_url) ∧
    (∀ v, p.transcription_url = some v → (applyPayload r p).transcription_url = v) ∧
    (∀ x ∈ st.rows, x.id ≠ r.id →
      x ∈ (updateEndpoint (.user uid) st r.id p true).2.rows) := by
  have hfind : getOwned st uid r.id = some r := getOwned_eq_self hnd hmem hown
  have hrows : (updateEndpoint (.user uid) st r.id p true).2.rows =
      replaceOwned st.rows uid r.id p := by
    simp [updateEndpoint, hfind, hv]
  refine ⟨by simp [updateEndpoint, hfind, hv], hrows, ?_, rfl, rfl,
    fun h => by simp [applyPayload, h], fun v h => by simp [applyPayload, h],
    fun h => by simp [applyPayload, h], fun v h => by simp [applyPayload, h],
    fun h => by simp [applyPayload, h], fun v h => by simp [applyPayload, h],
    fun h => by simp [applyPayload, h], fun v h => by simp [applyPayload, h],
    fun h => by simp [applyPayload, h], fun v h => by simp [applyPayload, h],
    fun h => by simp [applyPayload, h], fun v h => by simp [applyPayload, h],
    fun h => by simp [applyPayload, h], fun v h => by simp [applyPayload, h], ?_⟩
  · rw [hrows]
    unfold replaceOwned
    exact List.mem_map.mpr ⟨r, hmem, by simp [hown]⟩
  · intro x hx hne
    rw [hrows]
    unfold replaceOwned
    exact List.mem_map.mpr ⟨x, hx, by simp [hne]⟩

/-- C5: a PUT on an owned recording fails with 400 and no state change when
any required field is missing or invalid, and with a complete valid payload
returns 200 replacing every field by the payload value, owner and id
unchanged. -/
theorem c5_full_update (uid : Nat) (st : DbState) (r : Recording) (p : Payload)
    (hnd : NodupIds st.rows) (hmem : r ∈ st.rows) (hown : r.user = uid) :
    (fieldErrors p false ≠ [] →
      (updateEndpoint (.user uid) st r.id p false).1.status = 400 ∧
      (updateEndpoint (.user uid) st r.id p false).2 = st) ∧
    (p.title = none → fieldErrors p false ≠ []) ∧
    (p.duration_minutes = none → fieldErrors p false ≠ []) ∧
    (p.date_of_recording = none → fieldErrors p false ≠ []) ∧
    (p.category = none → fieldErrors p false ≠ []) ∧
    (p.current_status = none → fieldErrors p false ≠ []) ∧
    (p.recording_url = none → fieldErrors p false ≠ []) ∧
    (p.transcription_url = none → fieldErrors p false ≠ []) ∧
    (fieldErrors p false = [] →
      (updateEndpoint (.user uid) st r.id p false).1.status = 200 ∧
      (updateEndpoint (.user uid) st r.id p false).2.rows =
        replaceOwned st.rows uid r.id p ∧
      applyPayload r p ∈ (updateEndpoint (.user uid) st r.id p false).2.rows ∧
      (applyPayload r p).user = r.user ∧
      (applyPayload r p).id = r.id ∧
      p.title = some (applyPayload r p).title ∧
      p.duration_minutes = some (applyPayload r p).duration_minutes ∧
      p.date_of_recording = some (applyPayload r p).date_of_recording ∧
      p.category = some (applyPayload r p).category ∧
      p.current_status = some (applyPayload r p).current_status ∧
      p.recording_url = some (applyPayload r p).recording_url ∧
      p.transcription_url = some (applyPayload r p).transcription_url) := by
  have hfind : getOwned st uid r.id = some r := getOwned_eq_self hnd hmem hown
  refine ⟨?_, fun h => by simp [fieldErrors, checkField, h],
    fun h => by simp [fieldErrors, checkField, h],
    fun h => by simp [fieldErrors, checkField, h],
    fun h => by simp [fieldErrors, checkField, h],
    fun h => by simp [fieldErrors, checkField, h],
    fun h => by simp [fieldErrors, checkField, h],
    fun h => by simp [fieldErrors, checkField, h], ?_⟩
  · intro hne
    rcases hf : fieldErrors p false with _ | ⟨e, es⟩
    · exact absurd hf hne
    · constructor <;> simp [updateEndpoint, hfind, hf]
  · intro hv
    obtain ⟨⟨t, ht, _⟩, ⟨d, hd, _⟩, ⟨dt, hdt, _⟩, ⟨c, hc, _⟩, ⟨s, hs, _⟩,
      ⟨ru, hru, _⟩, ⟨tu, htu, _⟩⟩ := fieldErrors_nil_false hv
    have hrows : (updateEndpoint (.user uid) st r.id p false).2.rows =
        replaceOwned st.rows uid r.id p := by
      simp [updateEndpoint, hfind, hv]
    refine ⟨by simp [updateEndpoint, hfind, hv], hrows, ?_, rfl, rfl,
      by simp [applyPayload, ht], by simp [applyPayload, hd],
      by simp [applyPayload, hdt], by simp [applyPayload, hc],
      by simp [applyPayload, hs], by simp [applyPayload, hru],
      by simp [applyPayload, htu]⟩
    rw [hrows]
    unfold replaceOwned
    exact List.mem_map.mpr ⟨r, hmem, by simp [hown]⟩

/-- C6: deleting an owned recording returns 204 with empty body and the id
is absent from storage and from subsequent retrievals; deleting a recording
owned by another user returns 404 and leaves the state, the record
included, unchanged. -/
theorem c6_delete (u1 u2 : Nat) (st : DbState) (r : Recording)
    (hnd : NodupIds st.rows) (hmem : r ∈ st.rows) :
    (r.user = u1 →
      (deleteEndpoint (.user u1) st r.id).1.status = 204 ∧
      (deleteEndpoint (.user u1) st r.id).1.body = .empty ∧
      (deleteEndpoint (.user u1) st r.id).2.rows = removeOwned st.rows u1 r.id ∧
      (∀ x ∈ (deleteEndpoint (.user u1) st r.id).2.rows, x.id ≠ r.id) ∧
      retrieveEndpoint (.user u1) (deleteEndpoint (.user u1) st r.id).2 r.id =
        notFoundResponse) ∧
    (r.user = u2 → u1 ≠ u2 →
      deleteEndpoint (.user u1) st r.id = (notFoundResponse, st) ∧
      r ∈ (deleteEndpoint (.user u1) st r.id).2.rows) := by
  constructor
  · intro hown
    have hfind : getOwned st u1 r.id = some r := getOwned_eq_self hnd hmem hown
    have hrows : (deleteEndpoint (.user u1) st r.id).2.rows =
        removeOwned st.rows u1 r.id := by
      simp [deleteEndpoint, hfind]
    have habs : ∀ x ∈ (deleteEndpoint (.user u1) st r.id).2.rows, x.id ≠ r.id := by
      rw [hrows]
      intro x hx hxid
      have hx2 := List.mem_filter.mp hx
      have hxr : x = r := id_inj_of_nodup hnd hx2.1 hmem hxid
      subst hxr
      simp [hown, hxid] at hx2
    refine ⟨by simp [deleteEndpoint, hfind], by simp [deleteEndpoint, hfind],
      hrows, habs, ?_⟩
    have hg2 : getOwned (deleteEndpoint (.user u1) st r.id).2 u1 r.id = none := by
      apply getOwned_eq_none
      intro x hx hc
      exact habs x hx hc.1
    simp [retrieveEndpoint, hg2]
  · intro hown hne
    have hg : getOwned st u1 r.id = none := by
      apply getOwned_eq_none
      intro x hx hc
      have hxr : x = r := id_inj_of_nodup hnd hx hmem hc.1
      subst hxr
      exact hne (hc.2.symm.trans hown)
    have heq : deleteEndpoint (.user u1) st r.id = (notFoundResponse, st) := by
      simp [deleteEndpoint, hg]
    exact ⟨heq, by rw [heq]; exact hmem⟩

/-- C1: recordings of another user never appear in the list result, and
retrieving, updating or deleting them by id yields the very same NotFound
response and unchanged state as an id that exists nowhere. -/
theorem c1_ownership_isolation (u1 u2 : Nat) (st : DbState) (r : Recording)
    (p : Payload) (b : Bool) (hne : u1 ≠ u2) (hnd : NodupIds st.rows)
    (hmem : r ∈ st.rows) (hown : r.user = u2) :
    r ∉ listRecordings st.rows u1 ∧
    retrieveEndpoint (.user u1) st r.id = notFoundResponse ∧
    updateEndpoint (.user u1) st r.id p b = (notFoundResponse, st) ∧
    deleteEndpoint (.user u1) st r.id = (notFoundResponse, st) ∧
    (∀ rid, (∀ x ∈ st.rows, x.id ≠ rid) →
      retrieveEndpoint (.user u1) st rid = notFoundResponse ∧
      updateEndpoint (.user u1) st rid p b = (notFoundResponse, st) ∧
      deleteEndpoint (.user u1) st rid = (notFoundResponse, st)) := by
  have hg : getOwned st u1 r.id = none := by
    apply getOwned_eq_none
    intro x hx hc
    have hxr : x = r := id_inj_of_nodup hnd hx hmem hc.1
    subst hxr
    exact hne (hc.2.symm.trans hown)
  refine ⟨?_, by simp [retrieveEndpoint, hg], by simp [updateEndpoint, hg],
    by simp [deleteEndpoint, hg], ?_⟩
  · intro habs
    have hfil : r ∈ st.rows.filter (fun x => x.user == u1) :=
      (List.perm_insertionSort descId _).mem_iff.mp habs
    have : r.user = u1 := beq_iff_eq.mp (List.mem_filter.mp hfil).2
    exact hne (hown ▸ this.symm)
  · intro rid hnone
    have hg2 : getOwned st u1 rid = none := by
      apply getOwned_eq_none
      intro x hx hc
      exact hnone x hx hc.1
    exact ⟨by simp [retrieveEndpoint, hg2], by simp [updateEndpoint, hg2],
      by simp [deleteEndpoint, hg2]⟩

/-- Witness for c1_ownership_isolation at users 1 and 2 over stW. -/
theorem c1_ownership_isolation_witness :
    (1 : Nat) ≠ 2 ∧ NodupIds stW.rows ∧ recU2 ∈ stW.rows ∧ recU2.user = 2 ∧
    recU2 ∉ listRecordings stW.rows 1 ∧
    retrieveEndpoint (.user 1) stW recU2.id = notFoundResponse := by
  have h := c1_ownership_isolation 1 2 stW recU2 {} false (by decide) (by decide)
    (by decide) (by decide)
  exact ⟨by decide, by decide, by decide, by decide, h.1, h.2.1⟩

/-- Witness for c3_create_stores_payload at user 1 on an empty store. -/
theorem c3_create_stores_payload_witness :
    fieldErrors wpA false = [] ∧
    (createEndpoint (.user 1) ⟨[], 1⟩ wpA).1.status = 201 ∧
    (mkRecording 1 1 wpA).user = 1 ∧
    (mkRecording 1 1 wpA).id = 1 := by
  have h := c3_create_stores_payload 1 ⟨[], 1⟩ wpA (by decide)
  exact ⟨by decide, h.1, h.2.2.2.1, h.2.2.2.2.1⟩

/-- Witness for c4_partial_update_frame: title-only PATCH on recU1. -/
theorem c4_partial_update_frame_witness :
    NodupIds stW.rows ∧ recU1 ∈ stW.rows ∧ recU1.user = 1 ∧
    fieldErrors wpT true = [] ∧
    (updateEndpoint (.user 1) stW recU1.id wpT true).1.status = 200 ∧
    (applyPayload recU1 wpT).title = "New Recording Title" ∧
    (applyPayload recU1 wpT).recording_url = recU1.recording_url ∧
    (applyPayload recU1 wpT).user = recU1.user := by
  have h := c4_partial_update_frame 1 stW recU1 wpT (by decide) (by decide)
    (by decide) (by decide)
  obtain ⟨h1, h2, h3, h4, h5, h6, h7, h8, h9, h10, h11, h12, h13, h14, h15,
    h16, h17, h18, h19, h20⟩ := h
  exact ⟨by decide, by decide, by decide, by decide, h1, h7 _ rfl, h16 rfl, h4⟩

/-- Witness for c5_full_update: complete PUT payload wpA on recU1. -/
theorem c5_full_update_witness :
    NodupIds stW.rows ∧ recU1 ∈ stW.rows ∧ recU1.user = 1 ∧
    fieldErrors wpA false = [] ∧
    (updateEndpoint (.user 1) stW recU1.id wpA false).1.status = 200 ∧
    (applyPayload recU1 wpA).user = recU1.user ∧
    wpA.recording_url = some (applyPayload recU1 wpA).recording_url := by
  have h := c5_full_update 1 stW recU1 wpA (by decide) (by decide) (by decide)
  have hok := h.2.2.2.2.2.2.2.2 (by decide)
  exact ⟨by decide, by decide, by decide, by decide, hok.1, hok.2.2.2.1,
    hok.2.2.2.2.2.2.2.2.2.2.1⟩

/-- Witness for c6_delete: user 1 deletes recU1, then recU2, over stW. -/
theorem c6_delete_witness :
    NodupIds stW.rows ∧ recU1 ∈ stW.rows ∧ recU1.user = 1 ∧ recU2.user = 2 ∧
    (deleteEndpoint (.user 1) stW recU1.id).1.status = 204 ∧
    (deleteEndpoint (.user 1) stW recU1.id).1.body = .empty ∧
    deleteEndpoint (.user 1) stW recU2.id = (notFoundResponse, stW) := by
  have h1 := (c6_delete 1 2 stW recU1 (by decide) (by decide)).1 (by decide)
  have h2 := (c6_delete 1 2 stW recU2 (by decide) (by decide)).2 (by decide)
    (by decide)
  exact ⟨by decide, by decide, by decide, by decide, h1.1, h1.2.1, h2.1⟩

/-- Witness for c7_validation: blank-title payload is rejected on create. -/
theorem c7_validation_witness :
    fieldErrors wpBad false ≠ [] ∧
    (createEndpoint (.user 1) ⟨[], 1⟩ wpBad).1.status = 400 := by
  have h := c7_validation wpBad false ⟨[], 1⟩ 1 0 recU1
  have hne := h.1 ⟨"", rfl, rfl⟩
  refine ⟨hne, ?_⟩
  rw [h.2.2.2.2.2.2.2.2.1 hne]

/-- Witness for c8_list_ordering: two records of user 1 created in order
come back most recent first. -/
theorem c8_list_ordering_witness :
    stW8.rows.filter (fun x => x.user == 1) = [recW1, recW2] ∧
    recW1.id < recW2.id ∧
    listRecordings stW8.rows 1 = [recW2, recW1] ∧
    (listEndpoint (.user 1) stW8).status = 200 := by
  have h := c8_list_ordering 1 stW8
  exact ⟨by decide, by decide, h.2.2.2.2.2 recW1 recW2 (by decide) (by decide),
    h.1⟩

/-- Witness for c10_owner_not_disclosed: rA and rB differ only in owner. -/
theorem c10_owner_not_disclosed_witness :
    rA.user ≠ rB.user ∧
    "user" ∉ (serializeRecording rA).map Prod.fst ∧
    serializeRecording rA = serializeRecording rB := by
  have h := c10_owner_not_disclosed rA rB rfl rfl rfl rfl rfl rfl rfl rfl
    (by decide)
  exact ⟨by decide, h.2.2.1, h.2.2.2⟩
